import Mathlib

/-!
# Verification of the multi-source job-search pipeline

A shallow embedding of `job_search.py`: raw job records are association
lists of string keys to scalar values, DataFrames are column-oriented
tables (an ordered association of column name to a list of cells), and
fallible Python code (KeyError, AttributeError, SMTP failures) is
modelled with `Except String`.

Modelling conventions, fixed once for the whole file:
* A cell is `Option Value`; `none` stands for a missing entry
  (pandas `NaN` / `NaT`, or a key absent from a raw dict).
* Timestamps are minutes since an arbitrary epoch (`Value.ts`).
  `Value.ts t` stands for a date string that `pd.to_datetime` parses to
  the instant `t`; `Value.str` stands for text it cannot parse.
  `pd.Timedelta.days` floors, so day differences use `Int.fdiv _ 1440`.
* `strftime` is an external black-box formatter; it is modelled by an
  injective stand-in since no claim inspects the formatted text.
* Python dict insertion/overwrite (`d[k] = v`, which keeps the original
  position of an existing key) is `dictSet`.
-/

namespace JobSearch

/-- Scalar values that can sit in a raw record or a DataFrame cell. -/
inductive Value where
  | str (s : String)
  | int (n : Int)
  | ts (t : Int)
deriving Repr, DecidableEq

/-- A raw job record: a Python dict from string keys to scalars. -/
abbrev Rec := List (String × Value)

/-- A DataFrame column: one cell per row, `none` for `NaN`/`NaT`. -/
abbrev Col := List (Option Value)

/-- Python `d[k] = v`: overwrite in place if `k` is present (keeping its
position, as Python dicts do), otherwise append at the end. -/
def dictSet (r : Rec) (k : String) (v : Value) : Rec :=
  if (r.lookup k).isSome then
    r.map (fun p => if p.1 = k then (k, v) else p)
  else r ++ [(k, v)]

/-- Like `dictSet`, but only when the value is present (`if k in job: d[k] = job[k]`). -/
def dictSetOpt (r : Rec) (k : String) : Option Value → Rec
  | some v => dictSet r k v
  | none => r

/-- A pandas DataFrame, column-oriented: an ordered association of column
name to cells.  All columns of a well-formed frame have the same length. -/
structure DF where
  data : List (String × Col)
deriving Repr, DecidableEq

def emptyDF : DF := ⟨[]⟩

def DF.colNames (df : DF) : List String := df.data.map Prod.fst

/-- Column lookup `df[c]`; `none` models the `KeyError` situation. -/
def DF.getCol (df : DF) (c : String) : Option Col := df.data.lookup c

/-- Number of rows (length of the first column; 0 for a frame with no
columns). -/
def DF.nrows (df : DF) : Nat :=
  match df.data with
  | [] => 0
  | (_, col) :: _ => col.length

/-- Assignment `df[c] = cells`: replace the column if present, else append it. -/
def DF.setCol (df : DF) (c : String) (col : Col) : DF :=
  if (df.data.lookup c).isSome then
    ⟨df.data.map (fun p => if p.1 = c then (c, col) else p)⟩
  else ⟨df.data ++ [(c, col)]⟩

/-- Keep the rows selected by a boolean mask (pandas `df[mask]` with an
aligned mask). -/
def applyMask : List Bool → Col → Col
  | b :: ms, x :: xs => if b then x :: applyMask ms xs else applyMask ms xs
  | _, _ => []

def DF.filterRows (df : DF) (mask : List Bool) : DF :=
  ⟨df.data.map (fun p => (p.1, applyMask mask p.2))⟩

/-- Model of `df.rename(columns=m)`: rename the columns that occur as keys of the
mapping, leave every other column alone; absent keys are ignored. -/
def applyRen (m : List (String × String)) (c : String) : String :=
  (m.lookup c).getD c

def renameDF (m : List (String × String)) (df : DF) : DF :=
  ⟨df.data.map (fun p => (applyRen m p.1, p.2))⟩

/-- The ordered union of the keys of a batch of records: the column order
`pd.DataFrame(list_of_dicts)` produces. -/
def addKeys (acc : List String) (r : Rec) : List String :=
  r.foldl (fun a kv => if a.contains kv.1 then a else a ++ [kv.1]) acc

def unionKeys (recs : List Rec) : List String := recs.foldl addKeys []

/-- The table over a fixed column list: each column holds each record's
value for that key (missing key ↦ `NaN`). -/
def tableOf (cols : List String) (recs : List Rec) : DF :=
  ⟨cols.map (fun c => (c, recs.map (fun r => r.lookup c)))⟩

/-- Model of `pd.DataFrame(records)`. -/
def mkDF (recs : List Rec) : DF := tableOf (unionKeys recs) recs

/-- The cell of column `c` at row `i`; `some none` is a present but null
cell, `none` means the column is missing or the row out of range. -/
def DF.cellAt (df : DF) (c : String) (i : Nat) : Option (Option Value) :=
  (df.getCol c).bind (fun col => col[i]?)

def isErr {ε α : Type} (e : Except ε α) : Bool :=
  match e with
  | .error _ => true
  | .ok _ => false

/-- Apply a fallible step to every element, propagating the first
raise (Python's implicit semantics for a loop or comprehension). -/
def mapExcept {ε α β : Type} (f : α → Except ε β) : List α → Except ε (List β)
  | [] => .ok []
  | a :: t =>
      match f a with
      | .error e => .error e
      | .ok b =>
          match mapExcept f t with
          | .error e => .error e
          | .ok bs => .ok (b :: bs)

/-! ## Python string primitives

Structural (kernel-evaluable) models of the Python string methods the
scraper uses.  They operate on the character list of the string. -/

/-- Whether `pat` occurs contiguously inside the character list. -/
def hasSub (pat : List Char) : List Char → Bool
  | [] => pat.isEmpty
  | c :: rest => pat.isPrefixOf (c :: rest) || hasSub pat rest

/-- Python `pat in s`. -/
def containsStr (s pat : String) : Bool := hasSub pat.data s.data

/-- Python `s.lower()`. -/
def pyLower (s : String) : String := ⟨s.data.map Char.toLower⟩

/-- Python `s.strip()`. -/
def pyTrim (s : String) : String :=
  ⟨(((s.data.dropWhile Char.isWhitespace).reverse.dropWhile Char.isWhitespace).reverse)⟩

/-- Python `s.startswith(pre)`. -/
def pyStartsWith (s pre : String) : Bool := pre.data.isPrefixOf s.data

/-- Fuel-driven body of `pyReplace`; each step consumes at least one
character, so `cs.length` fuel suffices. -/
def replaceCharsAux (pat rep : List Char) : Nat → List Char → List Char
  | 0, cs => cs
  | _ + 1, [] => []
  | fuel + 1, c :: rest =>
      if pat.isPrefixOf (c :: rest) ∧ pat ≠ [] then
        rep ++ replaceCharsAux pat rep fuel ((c :: rest).drop pat.length)
      else c :: replaceCharsAux pat rep fuel rest

/-- Python `s.replace(pat, rep)` (for non-empty `pat`, the only use). -/
def pyReplace (s pat rep : String) : String :=
  ⟨replaceCharsAux pat.data rep.data s.data.length s.data⟩

/-- Fuel-driven body of `pySplitOn`. -/
def splitCharsAux (sep : List Char) : Nat → List Char → List (List Char)
  | _, [] => [[]]
  | 0, cs => [cs]
  | fuel + 1, c :: rest =>
      if sep.isPrefixOf (c :: rest) ∧ sep ≠ [] then
        [] :: splitCharsAux sep fuel ((c :: rest).drop sep.length)
      else
        match splitCharsAux sep fuel rest with
        | [] => [[c]]
        | piece :: more => (c :: piece) :: more

/-- Python `s.split(sep)` with a non-empty separator. -/
def pySplitOn (s sep : String) : List String :=
  (splitCharsAux sep.data s.data.length s.data).map (fun cs => ⟨cs⟩)

/-- Python `', '.join(l)`. -/
def joinComma : List String → String
  | [] => ""
  | [s] => s
  | s :: rest => s ++ ", " ++ joinComma rest

/-! ## The relevance filter (`JobSource.filter_design_tech_jobs`) -/

/-- Match the regex tail `\s*&\s*t` at the head of `cs` (the part of the
alternative `d\s*&\s*t` after the `d`); `\s` is whitespace. -/
def ampThenT (cs : List Char) : Bool :=
  match cs.dropWhile Char.isWhitespace with
  | '&' :: rest =>
      match rest.dropWhile Char.isWhitespace with
      | 't' :: _ => true
      | _ => false
  | _ => false

/-- Some position of `cs` matches the regex alternative `d\s*&\s*t`. -/
def hasDandT : List Char → Bool
  | [] => false
  | c :: rest => ((c == 'd') && ampThenT rest) || hasDandT rest

/-- Case-insensitive search of the relevance pattern
`(design|technology|d\s*&\s*t)` in one piece of text, the semantics of
`str.contains(pattern, case=False, regex=True)`. -/
def designTechMatch (s : String) : Bool :=
  let cs := s.data.map Char.toLower
  hasSub "design".data cs || hasSub "technology".data cs || hasDandT cs

/-- Composition of `fillna('')` with the string accessor: a missing or
non-string cell contributes no matchable text. -/
def cellText : Option Value → String
  | some (.str s) => s
  | _ => ""

/-- One cell of the combined boolean mask, used only when the frame has
at least one of the two text columns (so the masks align): pandas `|`
aligns on the index and fills the side coming from an absent column
(`df.get`'s empty-Series default) with `False`, which is the same as
reading that column as contributing no matchable text. -/
def rowText (df : DF) (c : String) (i : Nat) : String :=
  cellText (((df.getCol c).bind (fun col => col[i]?)).join)

/-- Model of `JobSource.filter_design_tech_jobs`: an empty frame is
returned unchanged; when `title` or `shortDescription` exists the rows
whose text matches the relevance pattern are kept; but on a nonempty
frame carrying neither column, both `df.get` defaults are unaligned
empty Series, and indexing the frame with the resulting empty boolean
mask raises (unalignable boolean indexer) instead of returning a
frame. -/
def filter_design_tech_jobs (df : DF) : Except String DF :=
  if df.nrows = 0 then .ok df
  else if (df.getCol "title").isSome || (df.getCol "shortDescription").isSome then
    .ok (df.filterRows ((List.range df.nrows).map
      (fun i => designTechMatch (rowText df "title" i) ||
                designTechMatch (rowText df "shortDescription" i))))
  else .error "IndexingError: unalignable boolean Series provided as indexer"

/-- The record-level reading of the filter's predicate. -/
def recRelevant (r : Rec) : Bool :=
  designTechMatch (cellText (r.lookup "title")) ||
  designTechMatch (cellText (r.lookup "shortDescription"))

/-! ## The TES source (`TesJobSource`) -/

/-- One job object of the TES embedded-JSON payload, restricted to the
fields `extract_job_data` reads.  Nested key presence (`'advert' in job`,
`'startDate' in job['advert']`, …) is nested `Option`s; the two `salary`
entries model the truthiness of `description`/`range`; `employerName`'s
outer layer is `'employer' in job`, its inner one `'name' in
job['employer']`. -/
structure TesJob where
  id : Option Value := none
  title : Option String := none
  promoted : Option Value := none
  shortDescription : Option String := none
  displayLocation : Option String := none
  quickApply : Option Value := none
  contractTerms : Option (List String) := none
  contractTypes : Option (List String) := none
  employerName : Option (Option String) := none
  salary : Option (Option String × Option String) := none
  advert : Option (Option Value × Option Value) := none
  application : Option (Option Value) := none
  canonicalUrl : Option String := none
deriving Repr, DecidableEq

/-- Model of `TesJobSource.extract_job_data`: flatten one job object, copying only
the keys that are present, and tag it with `source = 'TES'`. -/
def extract_job_data (job : TesJob) : Rec :=
  let r : Rec := []
  let r := dictSetOpt r "id" job.id
  let r := dictSetOpt r "title" (job.title.map Value.str)
  let r := dictSetOpt r "promoted" job.promoted
  let r := dictSetOpt r "shortDescription" (job.shortDescription.map Value.str)
  let r := dictSetOpt r "displayLocation" (job.displayLocation.map Value.str)
  let r := dictSetOpt r "quickApply" job.quickApply
  let r := dictSetOpt r "contractTerms"
    (job.contractTerms.map (fun l => Value.str (joinComma l)))
  let r := dictSetOpt r "contractTypes"
    (job.contractTypes.map (fun l => Value.str (joinComma l)))
  let r := match job.employerName with
    | some (some n) => dictSet r "employer_name" (Value.str n)
    | _ => r
  let r := match job.salary with
    | some (d, rg) =>
        let r := dictSetOpt r "salary_description" (d.map Value.str)
        dictSetOpt r "salary_range" (rg.map Value.str)
    | none => r
  let r := match job.advert with
    | some (s, e) =>
        let r := dictSetOpt r "advert_startDate" s
        dictSetOpt r "advert_endDate" e
    | none => r
  let r := match job.application with
    | some (some cd) => dictSet r "application_closeDate" cd
    | _ => r
  let r := dictSetOpt r "url" (job.canonicalUrl.map Value.str)
  dictSet r "source" (Value.str "TES")

/-- The `trpcState` payload of one TES search page: the optional `jobs`
array (`none` models a missing `jobs` key) and `numFound`. -/
structure PageData where
  jobs : Option (List TesJob) := none
  numFound : Nat := 0
deriving Repr, DecidableEq

/-- The page loop of `TesJobSource.search`.  `fetch` stands for the
`extract_page_data` capability: `none` models a missing `__NEXT_DATA__`
script, an unnavigable JSON path, or a falsy payload.  The fuel is the
number of pages the `range(1, max_pages + 1)` still allows; the loop
breaks on a missing/empty page, and after any page of fewer than 20
jobs. -/
def tesLoop (fetch : Nat → Option PageData) : Nat → Nat → List Rec
  | 0, _ => []
  | fuel + 1, page =>
      match fetch page with
      | none => []
      | some pd =>
          match pd.jobs with
          | none => []
          | some [] => []
          | some js =>
              let recs := js.map extract_job_data
              if js.length < 20 then recs
              else recs ++ tesLoop fetch fuel (page + 1)

/-- Model of `TesJobSource.search(max_pages)`: fetch pages `1 .. max_pages`. -/
def tesSearch (fetch : Nat → Option PageData) (max_pages : Nat) : List Rec :=
  tesLoop fetch max_pages 1

/-- The constructor configuration of `TesJobSource` that matters here:
`__init__` stores `max_pages` on the instance. -/
structure TesConfig where
  max_pages : Nat := 2
deriving Repr, DecidableEq

/-- The search exactly as `get_jobs` reaches it: `get_jobs` calls
`self.search()` with no argument, so the method parameter's own default
`max_pages=2` applies and the configured `self.max_pages` is never
read. -/
def tesConfiguredSearch (_cfg : TesConfig) (fetch : Nat → Option PageData) : List Rec :=
  tesSearch fetch 2

/-- Injective stand-in for the external `strftime('%d %B %Y, %H:%M')`
formatter; no claim inspects the formatted text. -/
def strftimeDMY (t : Int) : String := "formatted " ++ toString t

/-- Python `str(x)` as the f-string in `full_url` uses it. -/
def pyStr : Value → String
  | .str s => s
  | .int n => toString n
  | .ts t => strftimeDMY t

/-- Model of `pd.to_datetime` with the default `errors='raise'` on one cell: `NaN`
stays `NaT`, a parseable date (a `Value.ts`) parses, anything else
raises. -/
def toDatetimeCellRaise : Option Value → Except String (Option Value)
  | none => .ok none
  | some (.ts t) => .ok (some (.ts t))
  | some _ => .error "to_datetime: unparseable"

/-- Model of `pd.to_datetime(df[c])`: the raising column lookup `df[c]` followed
by the raising parse. -/
def toDatetimeColRaise (df : DF) (c : String) : Except String Col :=
  match df.getCol c with
  | none => .error ("KeyError: " ++ c)
  | some col => mapExcept toDatetimeCellRaise col

/-- The `status` cell: `'recent' if x >= seven_days_ago else 'older'`
(`NaT >= ts` is false in pandas, hence `older`). -/
def tesStatusCell (sevenAgo : Int) : Option Value → Option Value
  | some (.ts t) => some (.str (if sevenAgo ≤ t then "recent" else "older"))
  | _ => some (.str "older")

/-- One cell of `(application_closeDate - now).dt.days`: pandas
`Timedelta.days` floors, `NaT - now` is `NaT` whose `.days` is `NaN`. -/
def dayCell (now : Int) : Option Value → Option Value
  | some (.ts t) => some (.int (Int.fdiv (t - now) 1440))
  | _ => none

/-- The TES `full_url` cell: prefix the site for a present value, else
the placeholder. -/
def tesFullUrlCell : Option Value → Option Value
  | some v => some (.str ("https://www.tes.com" ++ pyStr v))
  | none => some (.str "No URL available")

/-- Application of `strftime` over a datetime column; `NaT` formats to `NaN`. -/
def fmtCell : Option Value → Option Value
  | some (.ts t) => some (.str (strftimeDMY t))
  | _ => none

/-- Model of `TesJobSource.normalize`: the unconditional `df['advert_startDate']`,
`df['application_closeDate']` and `df['url']` lookups raise `KeyError`
when the column is absent from the batch, and `pd.to_datetime` raises on
unparseable text; the `advert_endDate` block runs only when that column
exists. -/
def tesNormalize (now : Int) (raw : List Rec) : Except String DF :=
  if raw.isEmpty then .ok emptyDF
  else
    let df := mkDF raw
    match toDatetimeColRaise df "advert_startDate" with
    | .error e => .error e
    | .ok sCol =>
        let df := df.setCol "advert_startDate" sCol
        match toDatetimeColRaise df "application_closeDate" with
        | .error e => .error e
        | .ok cCol =>
            let df := df.setCol "application_closeDate" cCol
            let df := df.setCol "status" (sCol.map (tesStatusCell (now - 7 * 1440)))
            let df := df.setCol "days_to_apply" (cCol.map (dayCell now))
            match df.getCol "url" with
            | none => .error "KeyError: url"
            | some uCol =>
                let df := df.setCol "full_url" (uCol.map tesFullUrlCell)
                let df := df.setCol "advert_startDate_formatted" (sCol.map fmtCell)
                let df := df.setCol "application_closeDate_formatted" (cCol.map fmtCell)
                if (df.getCol "advert_endDate").isSome then
                  match toDatetimeColRaise df "advert_endDate" with
                  | .error e => .error e
                  | .ok eCol =>
                      let df := df.setCol "advert_endDate" eCol
                      .ok (df.setCol "advert_endDate_formatted" (eCol.map fmtCell))
                else .ok df

/-- Cells `pd.to_datetime` accepts without raising: null or a parseable
date. -/
def dateLike : Option Value → Bool
  | none => true
  | some (.ts _) => true
  | some _ => false

/-! ## The GOV.UK source (`GovJobSource`) -/

/-- One `.search-results__item` of the GOV.UK results page, reduced to
what `_extract_jobs_from_soup` reads: the optional heading link (title
text and href), the optional `.address` element, and the summary-list
rows that have both a key and a value element. -/
structure GovItem where
  titleLink : Option (String × String) := none
  address : Option String := none
  details : List (String × String) := []
deriving Repr, DecidableEq

/-- Model of `key_elem.text.strip().lower().replace(' ', '_')`. -/
def govDetailKey (k : String) : String := pyReplace (pyLower (pyTrim k)) " " "_"

/-- Extract one GOV.UK listing; note there is no title check and the
record is appended unconditionally. -/
def govExtractItem (it : GovItem) : Rec :=
  let j : Rec := []
  let j := match it.titleLink with
    | some (t, u) => dictSet (dictSet j "title" (.str (pyTrim t))) "url" (.str u)
    | none => j
  let j := match it.address with
    | some a => dictSet j "displayLocation" (.str (pyTrim a))
    | none => j
  let j := it.details.foldl (fun j kv => dictSet j (govDetailKey kv.1) (.str (pyTrim kv.2))) j
  dictSet j "source" (.str "GOV.UK")

/-- Model of `GovJobSource._extract_jobs_from_soup`. -/
def govExtract (items : List GovItem) : List Rec := items.map govExtractItem

/-- Model of `pd.to_datetime(_, errors='coerce')` on one cell: unparseable text
becomes `NaT` instead of raising. -/
def toDatetimeCellCoerce : Option Value → Option Value
  | some (.ts t) => some (.ts t)
  | _ => none

/-- A `full_url` cell computed through `x.startswith('/')`: a `NaN` or
non-string cell raises `AttributeError`. -/
def startsWithUrlCell (base : String) : Option Value → Except String (Option Value)
  | some (.str u) => .ok (some (.str (if pyStartsWith u "/" then base ++ u else u)))
  | _ => .error "AttributeError: startswith"

/-- Model of `.str.split(',').str[0]` on one cell (`NaN`/non-strings stay null). -/
def splitCommaHead : Option Value → Option Value
  | some (.str s) => some (.str ((pySplitOn s ",").headD s))
  | _ => none

/-- The tail of `GovJobSource.normalize` after the `full_url` block:
`status`, then the conditional `school_type`/`pay_scale`/
`working_pattern` renames. -/
def govNormalizeTail (df : DF) : DF :=
  let df := df.setCol "status" (List.replicate df.nrows (some (.str "current")))
  let df :=
    match df.getCol "school_type" with
    | some col => df.setCol "employer_name" (col.map splitCommaHead)
    | none => df
  let df :=
    match df.getCol "pay_scale" with
    | some col => df.setCol "salary_description" col
    | none => df
  match df.getCol "working_pattern" with
  | some col => df.setCol "contractTypes" col
  | none => df

/-- Model of `GovJobSource.normalize`: every block is guarded by column presence;
date parsing coerces failures to `NaT`; `days_to_apply` is computed only
when some close date is non-null; the `full_url` lambda raises on a null
url cell. -/
def govNormalize (now : Int) (raw : List Rec) : Except String DF :=
  if raw.isEmpty then .ok emptyDF
  else
    let df := mkDF raw
    let df :=
      match df.getCol "closing_date" with
      | some col =>
          (df.setCol "application_closeDate" (col.map toDatetimeCellCoerce)).setCol
            "application_closeDate_formatted" col
      | none => df
    let df :=
      match df.getCol "application_closeDate" with
      | some col =>
          if col.all (fun cell => cell.isNone) then df
          else df.setCol "days_to_apply" (col.map (dayCell now))
      | none => df
    match df.getCol "url" with
    | some col =>
        match mapExcept (startsWithUrlCell "https://teaching-vacancies.service.gov.uk") col with
        | .error e => .error e
        | .ok fcol => .ok (govNormalizeTail (df.setCol "full_url" fcol))
    | none => .ok (govNormalizeTail df)

/-! ## The RAA source (`RaaJobSource`) -/

/-- One `.card` of the RAA vacancies page: the optional `.card-title`,
the `.card-text` blocks (the first holds the detail lines, the second the
description), and the optional button href. -/
structure RaaCard where
  title : Option String := none
  cardTexts : List String := []
  url : Option String := none
deriving Repr, DecidableEq

/-- Model of `line.split(pat)[1].strip()`, used only under the guard
`pat in line`. -/
def afterSplit (line pat : String) : String := pyTrim ((pySplitOn line pat).getD 1 "")

/-- One stripped line of the first card text: each `'Label:' in line`
check fires independently. -/
def raaLineStep (j : Rec) (line0 : String) : Rec :=
  let line := pyTrim line0
  let j := if containsStr line "Establishment:" then
    dictSet j "employer_name" (.str (afterSplit line "Establishment:")) else j
  let j := if containsStr line "Location:" then
    dictSet j "displayLocation" (.str (afterSplit line "Location:")) else j
  let j := if containsStr line "Salary:" then
    dictSet j "salary_description" (.str (afterSplit line "Salary:")) else j
  let j := if containsStr line "Department:" then
    dictSet j "department" (.str (afterSplit line "Department:")) else j
  let j := if containsStr line "Job Type:" then
    dictSet j "contractTypes" (.str (afterSplit line "Job Type:")) else j
  let j := if containsStr line "Closing Date:" then
    dictSet j "closing_date" (.str (afterSplit line "Closing Date:")) else j
  if containsStr line "Ref:" then dictSet j "reference" (.str (afterSplit line "Ref:")) else j

/-- Extract one RAA card (the `source` tag is set before the title
check). -/
def raaExtractCard (card : RaaCard) : Rec :=
  let j : Rec := []
  let j := match card.title with
    | some t => dictSet j "title" (.str (pyTrim t))
    | none => j
  let j := match card.cardTexts.head? with
    | some details => (pySplitOn details "\n").foldl raaLineStep j
    | none => j
  let j := match card.cardTexts[1]? with
    | some d => dictSet j "shortDescription" (.str (pyTrim d))
    | none => j
  let j := match card.url with
    | some u => dictSet j "url" (.str u)
    | none => j
  dictSet j "source" (.str "RAA School")

/-- Model of `RaaJobSource._extract_jobs_from_soup`: only cards that produced a
`title` key are appended. -/
def raaExtract (cards : List RaaCard) : List Rec :=
  (cards.map raaExtractCard).filter (fun j => (j.lookup "title").isSome)

/-! ## The GDST source (`GdstJobSource`) -/

/-- One `.cell` of the GDST vacancies container: the optional
`h2.media-block__text` title, the `span` texts of the content block, and
the optional button href. -/
structure GdstItem where
  title : Option String := none
  spans : List String := []
  url : Option String := none
deriving Repr, DecidableEq

/-- Python truthiness of `job.get('title')`. -/
def truthyStr : Option Value → Bool
  | some (.str s) => !s.data.isEmpty
  | some _ => true
  | none => false

/-- Extract one GDST listing. -/
def gdstExtractItem (it : GdstItem) : Rec :=
  let j : Rec := []
  let j := match it.title with
    | some t => dictSet j "title" (.str (pyTrim t))
    | none => j
  let j := match it.spans[1]? with
    | some e => dictSet j "employer_name" (.str (pyTrim e))
    | none => j
  let j := match it.spans[2]? with
    | some s =>
        if containsStr s "Closing date:" then
          dictSet j "closing_date" (.str (pyTrim (pyReplace s "Closing date:" "")))
        else j
    | none => j
  let j := match it.url with
    | some u => dictSet j "url" (.str u)
    | none => j
  dictSet j "source" (.str "GDST")

/-- The keep-test of the Croydon/Sutton comprehension:
`"croydon" in j['employer_name'].lower() or "sutton" in ...`; the
subscript raises `KeyError` when the key is absent. -/
def gdstEmployerKeep (j : Rec) : Except String Bool :=
  match j.lookup "employer_name" with
  | some (.str e) =>
      .ok (hasSub "croydon".data (pyLower e).data || hasSub "sutton".data (pyLower e).data)
  | some _ => .error "AttributeError: lower"
  | none => .error "KeyError: employer_name"

/-- A list comprehension with a fallible predicate: elements are tested
left to right and the first raise propagates. -/
def filterExcept {ε α : Type} (p : α → Except ε Bool) : List α → Except ε (List α)
  | [] => .ok []
  | a :: t =>
      match p a with
      | .error e => .error e
      | .ok b =>
          match filterExcept p t with
          | .error e => .error e
          | .ok rest => .ok (if b then a :: rest else rest)

/-- Model of `GdstJobSource._extract_jobs_from_soup`: keep items with a truthy
title, then restrict to employers containing `croydon` or `sutton`. -/
def gdstExtract (items : List GdstItem) : Except String (List Rec) :=
  filterExcept gdstEmployerKeep
    ((items.map gdstExtractItem).filter (fun j => truthyStr (j.lookup "title")))

/-! ## The column standardizer and the orchestrator -/

/-- The rename mapping the source repeats verbatim in the `tes`, `raa`,
`dunottar`, `woldingham` and `suttonhigh`/`gdst` branches of
`standardize_column_names` (identity entries included, as written). -/
def commonRenameMap : List (String × String) :=
  [("title", "title"), ("employer_name", "employer_name"),
   ("displayLocation", "location"), ("contractTypes", "contract_type"),
   ("contractTerms", "contract_term"), ("salary_description", "salary"),
   ("application_closeDate_formatted", "closing_date"),
   ("days_to_apply", "days_remaining"), ("shortDescription", "description"),
   ("full_url", "url_"), ("source", "source")]

/-- The `gov` branch's rename mapping. -/
def govRenameMap : List (String × String) :=
  [("title", "title"), ("employer_name", "employer_name"),
   ("displayLocation", "location"), ("working_pattern", "contract_type"),
   ("school_type", "employer_type"), ("salary_description", "salary"),
   ("application_closeDate_formatted", "closing_date"),
   ("days_to_apply", "days_remaining"), ("full_url", "url_"),
   ("source", "source")]

/-- Model of `standardize_column_names(df, source_type)`: the branch keys are the
literals of the source; an unknown `source_type` returns the frame
unchanged. -/
def standardize_column_names (df : DF) (source_type : String) : DF :=
  if source_type = "tes" then renameDF commonRenameMap df
  else if source_type = "gov" then renameDF govRenameMap df
  else if source_type = "raa" then renameDF commonRenameMap df
  else if source_type = "dunottar" then renameDF commonRenameMap df
  else if source_type = "woldingham" then renameDF commonRenameMap df
  else if source_type = "suttonhigh" ∨ source_type = "gdst" then renameDF commonRenameMap df
  else df

/-- The `source_type` key `main` derives from the display name:
`source_name.lower().replace(' ', '').replace('.', '')`. -/
def sourceKey (source_name : String) : String :=
  pyReplace (pyReplace (pyLower source_name) " " "") "." ""

/-- The per-source loop of `main`: each configured source contributes
either its standardized `get_jobs` frame, or — when anything in the
`try` block raises — an empty frame; the loop itself never raises and
always visits every source. -/
def mainAggregate (sources : List (String × Except String DF)) : List (String × DF) :=
  sources.map (fun p =>
    (p.1, match p.2 with
      | .ok df => standardize_column_names df (sourceKey p.1)
      | .error _ => emptyDF))

/-! ## Mail delivery (`send_email_to_recipients` and the tail of `main`) -/

/-- What the delivery tail of `main` ends up doing. -/
inductive MailOutcome where
  | sentOk
  | savedToFile
  | raisedErr (msg : String)
deriving Repr, DecidableEq

/-- Python falsiness of an `os.environ.get` result (`None` or `''`). -/
def falsyEnv : Option String → Bool
  | none => true
  | some s => s.data.isEmpty

/-- Model of `send_email_to_recipients`: raise `ValueError` when either Gmail
credential is unset or empty, else one black-box SMTP attempt whose outcome
is the `smtpOk` capability. -/
def send_email_to_recipients (gmailUser gmailPass : Option String)
    (smtpOk : Bool) : Except String Bool :=
  if falsyEnv gmailUser || falsyEnv gmailPass then
    .error "GMAIL_USER and GMAIL_PASS environment variables must be set"
  else if smtpOk then .ok true
  else .error "SMTPException"

/-- The delivery tail of `main`: email is attempted only when sending is
requested and jobs were found; missing recipients fall back to the file,
and the `try/except` around `send_email_to_recipients` maps every raise
— the credentials `ValueError` included — to the file fallback. -/
def mainMailStep (send_email : Bool) (total_jobs : Nat) (recipients : List String)
    (gmailUser gmailPass : Option String) (smtpOk : Bool) : MailOutcome :=
  if send_email ∧ 0 < total_jobs then
    if recipients.isEmpty || recipients = [""] then .savedToFile
    else
      match send_email_to_recipients gmailUser gmailPass smtpOk with
      | .ok _ => .sentOk
      | .error _ => .savedToFile
  else .savedToFile

/-! ## Concrete inputs used by the claims -/

/-- A record whose title matches the relevance pattern (kept). -/
def recTechTitle : Rec := [("title", Value.str "Technology Teacher"), ("source", Value.str "TES")]

/-- A record whose title and description are both `Maths Teacher` (dropped). -/
def recMathsBoth : Rec :=
  [("title", Value.str "Maths Teacher"), ("shortDescription", Value.str "Maths Teacher"),
   ("source", Value.str "TES")]

/-- A record with neither a title nor a description (dropped). -/
def recNoText : Rec := [("salary_description", Value.str "MPS"), ("source", Value.str "TES")]

/-- A stub TES job with only a numbered title. -/
def mkTesJob (n : Nat) : TesJob := { title := some ("Job " ++ toString n) }

/-- Pages of 20, 20 and 5 jobs (page size 20), nothing beyond page 3. -/
def fetchTwentyTwentyFive : Nat → Option PageData
  | 1 => some { jobs := some ((List.range 20).map mkTesJob) }
  | 2 => some { jobs := some ((List.range 20).map (fun n => mkTesJob (20 + n))) }
  | 3 => some { jobs := some ((List.range 5).map (fun n => mkTesJob (40 + n))) }
  | _ => none

/-- Page 1 carries zero jobs; page 2 would carry 20 (to witness that it
is never consulted). -/
def fetchEmptyFirst : Nat → Option PageData
  | 1 => some { jobs := some [] }
  | _ => some { jobs := some ((List.range 20).map mkTesJob) }

/-- A raw TES batch in which no record carries `advert_startDate`,
`application_closeDate` or `url`. -/
def tesRawNoDates : List Rec := [extract_job_data { title := some "Teacher of Design" }]

/-- A TES job with dates and a url. -/
def tesJobFull : TesJob :=
  { title := some "Design Teacher", advert := some (some (.ts 500), none),
    application := some (some (.ts 3000)), canonicalUrl := some "/jobs/1" }

/-- A TES job with no date fields at all. -/
def tesJobBare : TesJob := { title := some "DT Technician" }

/-- A batch mixing a dated and an undated record (so every date column
exists but the second row's date cells are null). -/
def tesRawMixed : List Rec := [extract_job_data tesJobFull, extract_job_data tesJobBare]

/-- A canonical GOV.UK-shaped frame (its location column still carries
the canonical name `displayLocation`). -/
def dfGovSample : DF :=
  mkDF [[("title", Value.str "DT Teacher"), ("displayLocation", Value.str "Croydon"),
         ("application_closeDate_formatted", Value.str "1 June 2025"),
         ("source", Value.str "GOV.UK")]]

/-- A GOV.UK listing with an address but no heading link: extraction
still emits a record, and it has no title. -/
def govItemNoTitle : GovItem := { address := some "Somewhere, CR5" }

/-- A GDST page: a Croydon listing, a Norwich listing and a Sutton
listing, all titled and all carrying an employer span. -/
def gdstItemsSample : List GdstItem :=
  [{ title := some "Teacher of Design", spans := ["x", "Croydon High School"] },
   { title := some "Head of Technology", spans := ["x", "Norwich High School"] },
   { title := some "DT Technician", spans := ["x", "Sutton High School"] }]

/-- A frame already in the shared presentation vocabulary. -/
def dfStandardized : DF :=
  mkDF [[("title", Value.str "DT Teacher"), ("location", Value.str "Sutton"),
         ("salary", Value.str "MPS"), ("source", Value.str "TES")]]

/-- A GOV.UK record as `normalize` receives it: a title, a parseable
closing date and no url. -/
def govRecClose (t : Int) : Rec :=
  [("title", Value.str "DT Teacher"), ("closing_date", Value.ts t),
   ("source", Value.str "GOV.UK")]

/-- The shared presentation vocabulary of the final records. -/
def presentationCols : List String :=
  ["title", "employer_name", "location", "contract_type", "contract_term", "salary",
   "closing_date", "days_remaining", "description", "url_", "source"]

/-- A GDST listing that `if job.get('title')` accepts: a present,
non-empty (after stripping) title. -/
def gdstTitled (it : GdstItem) : Bool :=
  match it.title with
  | some t => !(pyTrim t).data.isEmpty
  | none => false

/-!
# Theorems
-/

/-! ## Basic lemmas about the DataFrame model -/

theorem lookup_map_overwrite {β : Type} (k k' : String) (v : β) (t : List (String × β)) :
    (t.map (fun p => if p.1 = k then (k, v) else p)).lookup k' =
      if k' = k then (t.lookup k').map (fun _ => v) else t.lookup k' := by
  induction t with
  | nil => by_cases h : k' = k <;> simp [List.lookup, h]
  | cons p t ih =>
      obtain ⟨a, b⟩ := p
      simp only [List.map_cons]
      by_cases hak : a = k
      · rw [if_pos (show (a, b).1 = k from hak)]
        subst hak
        by_cases hk' : k' = a
        · subst hk'
          simp [List.lookup]
        · simp [List.lookup, hk', beq_false_of_ne hk', ih]
      · rw [if_neg (show ¬ (a, b).1 = k from hak)]
        by_cases hk' : k' = a
        · subst hk'
          simp [List.lookup, hak]
        · simp [List.lookup, beq_false_of_ne hk', ih]

theorem lookup_append_single {β : Type} (k k' : String) (v : β) (r : List (String × β)) :
    (r ++ [(k, v)]).lookup k' =
      (r.lookup k').or (if k' = k then some v else none) := by
  induction r with
  | nil =>
      by_cases h : k' = k
      · simp [List.lookup, h]
      · simp [List.lookup, h, beq_false_of_ne h]
  | cons p t ih =>
      obtain ⟨a, b⟩ := p
      by_cases hk' : k' = a
      · subst hk'
        simp [List.lookup]
      · simp [List.lookup, beq_false_of_ne hk', ih]

theorem dictSet_lookup_same (r : Rec) (k : String) (v : Value) :
    (dictSet r k v).lookup k = some v := by
  unfold dictSet
  by_cases h : (r.lookup k).isSome = true
  · rw [if_pos h, lookup_map_overwrite, if_pos rfl]
    cases hr : r.lookup k with
    | none => rw [hr] at h; simp at h
    | some w => simp
  · rw [if_neg h, lookup_append_single]
    cases hr : r.lookup k with
    | none => simp
    | some w => rw [hr] at h; simp at h

theorem dictSet_lookup_other (r : Rec) (k k' : String) (v : Value) (h : k' ≠ k) :
    (dictSet r k v).lookup k' = r.lookup k' := by
  unfold dictSet
  by_cases hs : (r.lookup k).isSome = true
  · rw [if_pos hs, lookup_map_overwrite, if_neg h]
  · rw [if_neg hs, lookup_append_single, if_neg h]
    cases hr : r.lookup k' <;> simp

theorem getCol_setCol_same (df : DF) (c : String) (col : Col) :
    (df.setCol c col).getCol c = some col := by
  unfold DF.setCol DF.getCol
  by_cases h : (df.data.lookup c).isSome = true
  · rw [if_pos h]
    dsimp only
    rw [lookup_map_overwrite, if_pos rfl]
    cases hr : df.data.lookup c with
    | none => rw [hr] at h; simp at h
    | some w => simp
  · rw [if_neg h]
    dsimp only
    rw [lookup_append_single, if_pos rfl]
    cases hr : df.data.lookup c with
    | none => simp
    | some w => rw [hr] at h; simp at h

theorem getCol_setCol_other (df : DF) (c c' : String) (col : Col) (h : c' ≠ c) :
    (df.setCol c col).getCol c' = df.getCol c' := by
  unfold DF.setCol DF.getCol
  by_cases hs : (df.data.lookup c).isSome = true
  · rw [if_pos hs]
    dsimp only
    rw [lookup_map_overwrite, if_neg h]
  · rw [if_neg hs]
    dsimp only
    rw [lookup_append_single, if_neg h]
    cases hr : df.data.lookup c' <;> simp

theorem lookup_tab {β : Type} (f : String → β) (cols : List String) (k : String) :
    (cols.map (fun c => (c, f c))).lookup k =
      if k ∈ cols then some (f k) else none := by
  induction cols with
  | nil => simp [List.lookup]
  | cons a t ih =>
      by_cases h : k = a
      · subst h
        simp [List.lookup]
      · simp [List.lookup, beq_false_of_ne h, h, ih]

theorem getCol_tableOf (cols : List String) (recs : List Rec) (c : String) :
    (tableOf cols recs).getCol c =
      if c ∈ cols then some (recs.map (fun r => r.lookup c)) else none := by
  unfold tableOf DF.getCol
  dsimp only
  exact lookup_tab (fun c => recs.map (fun r => r.lookup c)) cols c

theorem getCol_mkDF (recs : List Rec) (c : String) :
    (mkDF recs).getCol c =
      if c ∈ unionKeys recs then some (recs.map (fun r => r.lookup c)) else none := by
  unfold mkDF
  exact getCol_tableOf _ _ _

theorem mem_addKeys_left (c : String) (r : Rec) :
    ∀ (acc : List String), c ∈ acc → c ∈ addKeys acc r := by
  unfold addKeys
  induction r with
  | nil =>
      intro acc h
      simpa using h
  | cons p t ih =>
      intro acc h
      simp only [List.foldl_cons]
      apply ih
      by_cases hc : acc.contains p.1 = true
      · rw [if_pos hc]
        exact h
      · rw [if_neg hc]
        exact List.mem_append_left _ h

theorem mem_addKeys_of_lookup (c : String) (r : Rec) :
    ∀ (acc : List String), (r.lookup c).isSome = true → c ∈ addKeys acc r := by
  induction r with
  | nil =>
      intro acc h
      simp [List.lookup] at h
  | cons p t ih =>
      obtain ⟨a, b⟩ := p
      intro acc h
      by_cases hc : c = a
      · subst hc
        unfold addKeys
        simp only [List.foldl_cons]
        have hstep : c ∈ (if acc.contains (c, b).1 = true then acc else acc ++ [(c, b).1]) := by
          by_cases hin : acc.contains (c, b).1 = true
          · rw [if_pos hin]
            exact List.mem_of_elem_eq_true hin
          · rw [if_neg hin]
            exact List.mem_append_right _ (by simp)
        exact mem_addKeys_left c t _ hstep
      · have ht : (t.lookup c).isSome = true := by
          simpa [List.lookup, beq_false_of_ne hc] using h
        unfold addKeys
        simp only [List.foldl_cons]
        exact ih _ ht

theorem mem_unionKeys_of_lookup (recs : List Rec) (r : Rec) (c : String)
    (hr : r ∈ recs) (h : (r.lookup c).isSome = true) : c ∈ unionKeys recs := by
  unfold unionKeys
  have main : ∀ (l : List Rec) (acc : List String),
      (c ∈ acc ∨ ∃ x ∈ l, (x.lookup c).isSome = true) → c ∈ l.foldl addKeys acc := by
    intro l
    induction l with
    | nil =>
        intro acc hacc
        rcases hacc with hacc | ⟨x, hx, _⟩
        · simpa using hacc
        · simp at hx
    | cons q t ih =>
        intro acc hacc
        simp only [List.foldl_cons]
        apply ih
        rcases hacc with hacc | ⟨x, hx, hx2⟩
        · exact Or.inl (mem_addKeys_left c q acc hacc)
        · rcases List.mem_cons.mp hx with hq | hxt
          · subst hq
            exact Or.inl (mem_addKeys_of_lookup c x acc hx2)
          · exact Or.inr ⟨x, hxt, hx2⟩
  exact main recs [] (Or.inr ⟨r, hr, h⟩)

theorem lookup_none_of_not_mem_unionKeys (recs : List Rec) (r : Rec) (c : String)
    (hr : r ∈ recs) (h : c ∉ unionKeys recs) : r.lookup c = none := by
  cases hl : r.lookup c with
  | none => rfl
  | some v =>
      exact absurd (mem_unionKeys_of_lookup recs r c hr (by simp [hl])) h

/-! ## Lemmas about the relevance filter -/

theorem nrows_tableOf_cons (c : String) (cols : List String) (recs : List Rec) :
    (tableOf (c :: cols) recs).nrows = recs.length := by
  simp [tableOf, DF.nrows]

theorem applyMask_map (p : Rec → Bool) (f : Rec → Option Value) (l : List Rec) :
    applyMask (l.map p) (l.map f) = (l.filter p).map f := by
  induction l with
  | nil => rfl
  | cons a t ih =>
      by_cases hp : p a = true
      · simp [applyMask, List.filter_cons, hp, ih]
      · simp [applyMask, List.filter_cons, hp, ih]

theorem rowText_tableOf (ks : List String) (recs : List Rec) (c : String) (i : Nat)
    (r : Rec) (hi : recs[i]? = some r) (hnone : c ∉ ks → r.lookup c = none) :
    rowText (tableOf ks recs) c i = cellText (r.lookup c) := by
  unfold rowText
  rw [getCol_tableOf]
  by_cases hc : c ∈ ks
  · rw [if_pos hc]
    simp [List.getElem?_map, hi]
  · rw [if_neg hc, hnone hc]
    simp [cellText]

theorem range_map_eq_map {β : Type} (l : List Rec) (F : Nat → β) (G : Rec → β)
    (h : ∀ i r, l[i]? = some r → F i = G r) :
    (List.range l.length).map F = l.map G := by
  apply List.ext_getElem?
  intro i
  rw [List.getElem?_map, List.getElem?_map]
  by_cases hi : i < l.length
  · rw [List.getElem?_range hi]
    cases hl : l[i]? with
    | none =>
        rw [List.getElem?_eq_none_iff] at hl
        omega
    | some r =>
        simp only [Option.map_some']
        rw [h i r hl]
  · have h1 : l.length ≤ i := Nat.le_of_not_lt hi
    rw [List.getElem?_eq_none (by simpa using h1), List.getElem?_eq_none h1]
    rfl

theorem filterRows_tableOf (ks : List String) (recs : List Rec) :
    DF.filterRows (tableOf ks recs) (recs.map recRelevant) =
      tableOf ks (recs.filter recRelevant) := by
  unfold tableOf DF.filterRows
  simp only [DF.mk.injEq, List.map_map]
  apply List.map_congr_left
  intro c _
  simp only [Function.comp]
  rw [applyMask_map]

theorem nrows_tableOf_zero (K : List String) (recs : List Rec)
    (h : (tableOf K recs).nrows = 0) : K = [] ∨ recs = [] := by
  cases K with
  | nil => exact Or.inl rfl
  | cons c0 ks =>
      rw [nrows_tableOf_cons] at h
      exact Or.inr (List.length_eq_zero.mp h)

/-- The filter keeps exactly the records whose `title` or
`shortDescription` matches the relevance pattern, on every batch that is
empty or has at least one of the two text columns (so the boolean masks
align): it returns the table of the matching records over the same
columns. -/
theorem filter_design_tech_jobs_mkDF (recs : List Rec)
    (h : "title" ∈ unionKeys recs ∨ "shortDescription" ∈ unionKeys recs ∨ recs = []) :
    filter_design_tech_jobs (mkDF recs) =
      .ok (tableOf (unionKeys recs) (recs.filter recRelevant)) := by
  unfold filter_design_tech_jobs mkDF
  by_cases h0 : (tableOf (unionKeys recs) recs).nrows = 0
  · rw [if_pos h0]
    rcases nrows_tableOf_zero _ _ h0 with hK | hR
    · rw [hK]
      rfl
    · rw [hR]
      rfl
  · rw [if_neg h0]
    have hcols : (((tableOf (unionKeys recs) recs).getCol "title").isSome ||
        ((tableOf (unionKeys recs) recs).getCol "shortDescription").isSome) = true := by
      rcases h with hT | hD | hR
      · simp [getCol_tableOf, hT]
      · simp [getCol_tableOf, hD]
      · exfalso
        apply h0
        subst hR
        rfl
    rw [if_pos hcols]
    have hK : ∃ c0 ks, unionKeys recs = c0 :: ks := by
      cases hu : unionKeys recs with
      | nil => rw [hu] at h0; simp [tableOf, DF.nrows] at h0
      | cons a b => exact ⟨a, b, rfl⟩
    obtain ⟨c0, ks, hu⟩ := hK
    have hn : (tableOf (unionKeys recs) recs).nrows = recs.length := by
      rw [hu, nrows_tableOf_cons]
    rw [hn]
    have hmask : (List.range recs.length).map
        (fun i => designTechMatch (rowText (tableOf (unionKeys recs) recs) "title" i) ||
                  designTechMatch (rowText (tableOf (unionKeys recs) recs) "shortDescription" i)) =
        recs.map recRelevant := by
      apply range_map_eq_map
      intro i r hi
      have hrmem : r ∈ recs := List.getElem?_mem hi
      rw [rowText_tableOf _ _ _ _ r hi
            (fun hnm => lookup_none_of_not_mem_unionKeys recs r _ hrmem hnm),
          rowText_tableOf _ _ _ _ r hi
            (fun hnm => lookup_none_of_not_mem_unionKeys recs r _ hrmem hnm)]
      rfl
    rw [hmask, filterRows_tableOf]

/-- C5 fails as stated: on a nonempty record set in which no record
carries a `title` or a `shortDescription` field (reachable from GOV.UK,
whose extraction never produces `shortDescription` and produces `title`
only when the heading link exists), both `df.get` defaults are unaligned
empty Series and `df[title_match | desc_match]` raises instead of
returning the record set with the textless record dropped. -/
theorem counterexample_C5_filter_raises :
    isErr (filter_design_tech_jobs (mkDF [recNoText])) = true ∧
    filter_design_tech_jobs (mkDF [recNoText]) ≠
      .ok (tableOf (unionKeys [recNoText]) ([recNoText].filter recRelevant)) := by
  refine ⟨by decide, ?_⟩
  intro hcontra
  have h1 : isErr (filter_design_tech_jobs (mkDF [recNoText])) = true := by decide
  rw [hcontra] at h1
  simp [isErr] at h1

/-- C5 (amended): on every record set that is empty or in which at least
one record carries a `title` or `shortDescription` field (so the frame
has one of the two text columns and the boolean masks align),
`filter_design_tech_jobs` keeps exactly the records whose `title` or
`shortDescription` matches the case-insensitive pattern
`(design|technology|d\s*&\s*t)`; concretely, a record titled
`Technology Teacher` is kept, one whose title and description are both
`Maths Teacher` is dropped, one with neither field present in such a set
is dropped, and the empty record set filters to the empty record set
without failing.  On a nonempty record set with neither field anywhere,
the filter raises instead. -/
theorem claim_C5_relevance_filter :
    (∀ recs : List Rec,
        ("title" ∈ unionKeys recs ∨ "shortDescription" ∈ unionKeys recs ∨ recs = []) →
        filter_design_tech_jobs (mkDF recs) =
          .ok (tableOf (unionKeys recs) (recs.filter recRelevant))) ∧
    filter_design_tech_jobs (mkDF [recTechTitle, recMathsBoth, recNoText]) =
      .ok (tableOf (unionKeys [recTechTitle, recMathsBoth, recNoText]) [recTechTitle]) ∧
    filter_design_tech_jobs (mkDF []) = .ok (mkDF []) := by
  refine ⟨filter_design_tech_jobs_mkDF, ?_, rfl⟩
  rw [filter_design_tech_jobs_mkDF _ (by decide)]
  exact congrArg Except.ok (by decide)

/-- Witness for C5 at the three-record batch (kept, dropped, dropped):
the batch has a `title` column, so the hypothesis holds. -/
theorem claim_C5_witness :
    ("title" ∈ unionKeys [recTechTitle, recMathsBoth, recNoText] ∨
     "shortDescription" ∈ unionKeys [recTechTitle, recMathsBoth, recNoText] ∨
     ([recTechTitle, recMathsBoth, recNoText] : List Rec) = []) ∧
    filter_design_tech_jobs (mkDF [recTechTitle, recMathsBoth, recNoText]) =
      .ok (tableOf (unionKeys [recTechTitle, recMathsBoth, recNoText])
        ([recTechTitle, recMathsBoth, recNoText].filter recRelevant)) :=
  ⟨by decide,
   claim_C5_relevance_filter.1 [recTechTitle, recMathsBoth, recNoText] (by decide)⟩

/-! ## Lemmas and claims about the TES source -/

/-- C2: the pagination claim fails on the code.  A `TesJobSource`
configured with `max_pages = 3` still collects only the first two pages
(40 records) when `get_jobs` runs, because `search()` is called with no
argument and the method's own default `max_pages=2` shadows the
configured value; only an explicit `search(max_pages=3)` would stop after
page 3 with 45 records.  The zero-records half of the claim holds: a
first page with no jobs ends the search at 0 records even though page 2
carries 20 jobs. -/
theorem claim_C2_pagination_bug :
    (tesConfiguredSearch { max_pages := 3 } fetchTwentyTwentyFive).length = 40 ∧
    (tesSearch fetchTwentyTwentyFive 3).length = 45 ∧
    tesSearch fetchEmptyFirst 2 = [] := by
  refine ⟨?_, ?_, rfl⟩ <;> decide

theorem mapExcept_toDatetime_ok (col : Col) (h : col.all dateLike = true) :
    mapExcept toDatetimeCellRaise col = .ok col := by
  induction col with
  | nil => rfl
  | cons cell t ih =>
      rw [List.all_cons, Bool.and_eq_true] at h
      obtain ⟨h1, h2⟩ := h
      have ht := ih h2
      cases cell with
      | none =>
          simp [mapExcept, toDatetimeCellRaise, ht]
      | some v =>
          cases v with
          | str s => simp [dateLike] at h1
          | int n => simp [dateLike] at h1
          | ts t' => simp [mapExcept, toDatetimeCellRaise, ht]

set_option maxHeartbeats 1600000 in
/-- Full characterization of a successful `TesJobSource.normalize` run:
when the three unconditionally accessed columns exist and every date cell
is null or parseable, normalization succeeds and the date-derived columns
are the pointwise images of the input columns. -/
theorem tesNormalize_spec (now : Int) (raw : List Rec) (sCol cCol : Col)
    (hS : (mkDF raw).getCol "advert_startDate" = some sCol)
    (hC : (mkDF raw).getCol "application_closeDate" = some cCol)
    (hU : ((mkDF raw).getCol "url").isSome = true)
    (hSd : sCol.all dateLike = true)
    (hCd : cCol.all dateLike = true)
    (hEd : (((mkDF raw).getCol "advert_endDate").getD []).all dateLike = true) :
    ∃ df', tesNormalize now raw = .ok df' ∧
      df'.getCol "application_closeDate" = some cCol ∧
      df'.getCol "days_to_apply" = some (cCol.map (dayCell now)) ∧
      df'.getCol "status" = some (sCol.map (tesStatusCell (now - 7 * 1440))) ∧
      df'.getCol "application_closeDate_formatted" = some (cCol.map fmtCell) := by
  have hraw : ¬ raw.isEmpty = true := by
    cases raw with
    | nil => simp [mkDF, tableOf, unionKeys, DF.getCol, List.lookup] at hS
    | cons a t => simp
  obtain ⟨uCol, hUc⟩ := Option.isSome_iff_exists.mp hU
  unfold tesNormalize
  rw [if_neg hraw]
  have h1 : toDatetimeColRaise (mkDF raw) "advert_startDate" = .ok sCol := by
    unfold toDatetimeColRaise
    rw [hS]
    exact mapExcept_toDatetime_ok _ hSd
  simp only [h1]
  have h2 : toDatetimeColRaise ((mkDF raw).setCol "advert_startDate" sCol)
      "application_closeDate" = .ok cCol := by
    unfold toDatetimeColRaise
    rw [getCol_setCol_other _ _ _ _
      (show ("application_closeDate" : String) ≠ "advert_startDate" by decide), hC]
    exact mapExcept_toDatetime_ok _ hCd
  simp only [h2]
  have hu5 : (((((mkDF raw).setCol "advert_startDate" sCol).setCol
        "application_closeDate" cCol).setCol "status"
        (sCol.map (tesStatusCell (now - 7 * 1440)))).setCol "days_to_apply"
        (cCol.map (dayCell now))).getCol "url" = some uCol := by
    rw [getCol_setCol_other _ _ _ _ (show ("url" : String) ≠ "days_to_apply" by decide),
        getCol_setCol_other _ _ _ _ (show ("url" : String) ≠ "status" by decide),
        getCol_setCol_other _ _ _ _ (show ("url" : String) ≠ "application_closeDate" by decide),
        getCol_setCol_other _ _ _ _ (show ("url" : String) ≠ "advert_startDate" by decide),
        hUc]
  simp only [hu5]
  have hend : ((((((((mkDF raw).setCol "advert_startDate" sCol).setCol
        "application_closeDate" cCol).setCol "status"
        (sCol.map (tesStatusCell (now - 7 * 1440)))).setCol "days_to_apply"
        (cCol.map (dayCell now))).setCol "full_url" (uCol.map tesFullUrlCell)).setCol
        "advert_startDate_formatted" (sCol.map fmtCell)).setCol
        "application_closeDate_formatted" (cCol.map fmtCell)).getCol "advert_endDate" =
      (mkDF raw).getCol "advert_endDate" := by
    rw [getCol_setCol_other _ _ _ _
          (show ("advert_endDate" : String) ≠ "application_closeDate_formatted" by decide),
        getCol_setCol_other _ _ _ _
          (show ("advert_endDate" : String) ≠ "advert_startDate_formatted" by decide),
        getCol_setCol_other _ _ _ _ (show ("advert_endDate" : String) ≠ "full_url" by decide),
        getCol_setCol_other _ _ _ _ (show ("advert_endDate" : String) ≠ "days_to_apply" by decide),
        getCol_setCol_other _ _ _ _ (show ("advert_endDate" : String) ≠ "status" by decide),
        getCol_setCol_other _ _ _ _
          (show ("advert_endDate" : String) ≠ "application_closeDate" by decide),
        getCol_setCol_other _ _ _ _
          (show ("advert_endDate" : String) ≠ "advert_startDate" by decide)]
  rw [hend]
  cases hE : (mkDF raw).getCol "advert_endDate" with
  | none =>
      rw [if_neg (by simp)]
      refine ⟨_, rfl, ?_, ?_, ?_, ?_⟩ <;>
        · repeat first
            | rw [getCol_setCol_same]
            | rw [getCol_setCol_other _ _ _ _ (by decide)]
  | some eCol =>
      rw [hE] at hEd
      have h3 : toDatetimeColRaise ((((((((mkDF raw).setCol "advert_startDate" sCol).setCol
            "application_closeDate" cCol).setCol "status"
            (sCol.map (tesStatusCell (now - 7 * 1440)))).setCol "days_to_apply"
            (cCol.map (dayCell now))).setCol "full_url" (uCol.map tesFullUrlCell)).setCol
            "advert_startDate_formatted" (sCol.map fmtCell)).setCol
            "application_closeDate_formatted" (cCol.map fmtCell)) "advert_endDate" = .ok eCol := by
        unfold toDatetimeColRaise
        rw [hend, hE]
        exact mapExcept_toDatetime_ok _ (by simpa using hEd)
      rw [if_pos (by simp)]
      simp only [h3]
      refine ⟨_, rfl, ?_, ?_, ?_, ?_⟩ <;>
        · repeat first
            | rw [getCol_setCol_same]
            | rw [getCol_setCol_other _ _ _ _ (by decide)]

/-- C1 fails as stated: a batch whose records carry none of the optional
date or url fields makes `TesJobSource.normalize` raise a `KeyError`
(`df['advert_startDate']` on a frame without that column) instead of
returning a record set. -/
theorem counterexample_C1_normalize_raises :
    isErr (tesNormalize 0 tesRawNoDates) = true := by decide

/-- C1 (amended): provided at least one record of the batch carries each
of `advert_startDate`, `application_closeDate` and `url` (so those
columns exist) and every present date value is parseable,
`TesJobSource.normalize` returns a canonical record set without raising,
with one output row per input record, and a record lacking a parseable
close date still appears with its close date and `days_to_apply` null. -/
theorem claim_C1_tes_normalize_total (now : Int) (raw : List Rec) (sCol cCol : Col)
    (hS : (mkDF raw).getCol "advert_startDate" = some sCol)
    (hC : (mkDF raw).getCol "application_closeDate" = some cCol)
    (hU : ((mkDF raw).getCol "url").isSome = true)
    (hSd : sCol.all dateLike = true)
    (hCd : cCol.all dateLike = true)
    (hEd : (((mkDF raw).getCol "advert_endDate").getD []).all dateLike = true) :
    ∃ df', tesNormalize now raw = .ok df' ∧
      df'.getCol "application_closeDate" = some cCol ∧
      df'.getCol "days_to_apply" = some (cCol.map (dayCell now)) ∧
      cCol.length = raw.length ∧
      ∀ i, cCol[i]? = some none →
        df'.cellAt "application_closeDate" i = some none ∧
        df'.cellAt "days_to_apply" i = some none := by
  obtain ⟨df', h0, h1, h2, h3, h4⟩ := tesNormalize_spec now raw sCol cCol hS hC hU hSd hCd hEd
  have hlen : cCol.length = raw.length := by
    rw [getCol_mkDF] at hC
    by_cases hmem : "application_closeDate" ∈ unionKeys raw
    · rw [if_pos hmem] at hC
      have hc2 : raw.map (fun r => r.lookup "application_closeDate") = cCol :=
        Option.some_inj.mp hC
      rw [← hc2, List.length_map]
    · rw [if_neg hmem] at hC
      exact absurd hC (by simp)
  refine ⟨df', h0, h1, h2, hlen, ?_⟩
  intro i hcell
  constructor
  · unfold DF.cellAt
    rw [h1]
    simpa using hcell
  · unfold DF.cellAt
    rw [h2]
    simp [List.getElem?_map, hcell, dayCell]

/-- Witness for C1 at a concrete batch: one fully dated record and one
record with no dates at all; the undated record appears in the output
with null close date and null `days_to_apply`. -/
theorem claim_C1_witness :
    ∃ df', tesNormalize 100 tesRawMixed = .ok df' ∧
      df'.getCol "application_closeDate" = some [some (.ts 3000), none] ∧
      df'.getCol "days_to_apply" = some (([some (.ts 3000), none] : Col).map (dayCell 100)) ∧
      ([some (.ts 3000), none] : Col).length = tesRawMixed.length ∧
      ∀ i, ([some (.ts 3000), none] : Col)[i]? = some none →
        DF.cellAt df' "application_closeDate" i = some none ∧
        DF.cellAt df' "days_to_apply" i = some none :=
  claim_C1_tes_normalize_total 100 tesRawMixed [some (.ts 500), none] [some (.ts 3000), none]
    (by decide) (by decide) (by decide) (by decide) (by decide) (by decide)

/-! ## Standardization and orchestration claims -/

/-- C3 fails on the code: `main` derives the `source_type` keys `govuk`,
`raaschool`, `dunottarschool`, `woldinghamschool` and
`suttonhighschool`, which match none of `standardize_column_names`'
branch keys (`gov`, `raa`, `dunottar`, `woldingham`, `suttonhigh`), so
every source except TES and GDST keeps its canonical column names
(`displayLocation` is not renamed to `location`); the intended key
`gov` would have renamed the same frame. -/
theorem claim_C3_standardize_key_mismatch :
    sourceKey "TES" = "tes" ∧ sourceKey "GDST" = "gdst" ∧
    sourceKey "GOV.UK" = "govuk" ∧ sourceKey "RAA School" = "raaschool" ∧
    sourceKey "Dunottar School" = "dunottarschool" ∧
    sourceKey "Woldingham School" = "woldinghamschool" ∧
    sourceKey "Sutton High School" = "suttonhighschool" ∧
    standardize_column_names dfGovSample (sourceKey "GOV.UK") = dfGovSample ∧
    "displayLocation" ∈ (standardize_column_names dfGovSample (sourceKey "GOV.UK")).colNames ∧
    "location" ∉ (standardize_column_names dfGovSample (sourceKey "GOV.UK")).colNames ∧
    "location" ∈ (standardize_column_names dfGovSample "gov").colNames ∧
    "closing_date" ∈ (standardize_column_names dfGovSample "gov").colNames := by
  decide

/-- C4: with three configured sources of which the second's fetch raises
a transport error, the aggregated result still has all three entries,
maps the failing source to the empty record set (not an exception), and
maps the first and third sources to exactly the entries of the
failure-free run. -/
theorem claim_C4_orchestrator_isolation (n1 n2 n3 : String) (d1 d2 d3 : DF) (e : String) :
    (mainAggregate [(n1, .ok d1), (n2, .error e), (n3, .ok d3)]).length = 3 ∧
    (mainAggregate [(n1, .ok d1), (n2, .error e), (n3, .ok d3)])[1]? = some (n2, emptyDF) ∧
    (mainAggregate [(n1, .ok d1), (n2, .error e), (n3, .ok d3)])[0]? =
      (mainAggregate [(n1, .ok d1), (n2, .ok d2), (n3, .ok d3)])[0]? ∧
    (mainAggregate [(n1, .ok d1), (n2, .error e), (n3, .ok d3)])[2]? =
      (mainAggregate [(n1, .ok d1), (n2, .ok d2), (n3, .ok d3)])[2]? :=
  ⟨rfl, rfl, rfl, rfl⟩

theorem map_ren_id (m : List (String × String)) (l : List (String × Col))
    (h : ∀ c ∈ l.map Prod.fst, applyRen m c = c) :
    l.map (fun p => (applyRen m p.1, p.2)) = l := by
  induction l with
  | nil => rfl
  | cons p t ih =>
      obtain ⟨c, col⟩ := p
      simp only [List.map_cons]
      rw [h c (by simp)]
      rw [ih (fun c' hc' => h c' (by simp [hc']))]

theorem renameDF_id (m : List (String × String)) (df : DF)
    (h : ∀ c ∈ df.colNames, applyRen m c = c) : renameDF m df = df := by
  obtain ⟨data⟩ := df
  unfold renameDF
  simp only [DF.mk.injEq]
  exact map_ren_id m data h

/-- C8: `standardize_column_names` is idempotent for every source type:
a frame already in the presentation vocabulary (so containing none of
the old column names any branch renames) is returned unchanged, and the
rename tolerates absent optional columns (they are simply not there to
rename) rather than failing. -/
theorem claim_C8_standardize_idempotent (st : String) (df : DF)
    (h : ∀ c ∈ df.colNames, c ∈ presentationCols) :
    standardize_column_names df st = df := by
  have hcommon : renameDF commonRenameMap df = df := by
    apply renameDF_id
    intro c hc
    have hall : ∀ x ∈ presentationCols, applyRen commonRenameMap x = x := by decide
    exact hall c (h c hc)
  have hgov : renameDF govRenameMap df = df := by
    apply renameDF_id
    intro c hc
    have hall : ∀ x ∈ presentationCols, applyRen govRenameMap x = x := by decide
    exact hall c (h c hc)
  unfold standardize_column_names
  split_ifs <;> first | exact hcommon | exact hgov | rfl

/-- Witness for C8: a frame over presentation names under the `tes`
branch. -/
theorem claim_C8_witness :
    standardize_column_names dfStandardized "tes" = dfStandardized :=
  claim_C8_standardize_idempotent "tes" dfStandardized (by decide)

/-! ## Extraction-invariant claims (C6, C10) -/

theorem filterExcept_ok_sub {ε α : Type} (p : α → Except ε Bool) :
    ∀ (l res : List α), filterExcept p l = .ok res → ∀ a ∈ res, a ∈ l := by
  intro l
  induction l with
  | nil =>
      intro res h a ha
      simp only [filterExcept, Except.ok.injEq] at h
      subst h
      simp at ha
  | cons x t ih =>
      intro res h a ha
      unfold filterExcept at h
      cases hp : p x with
      | error e =>
          rw [hp] at h
          exact Except.noConfusion h
      | ok b =>
          simp only [hp] at h
          cases hft : filterExcept p t with
          | error e =>
              rw [hft] at h
              exact Except.noConfusion h
          | ok rest =>
              simp only [hft, Except.ok.injEq] at h
              subst h
              cases b with
              | true =>
                  simp only [if_true] at ha
                  rcases List.mem_cons.mp ha with rfl | hat
                  · simp
                  · exact List.mem_cons_of_mem x (ih rest hft a hat)
              | false =>
                  simp only [Bool.false_eq_true, if_false] at ha
                  exact List.mem_cons_of_mem x (ih rest hft a ha)

theorem filterExcept_ok_mem {ε α : Type} (p : α → Except ε Bool) (l : List α)
    (h : ∀ a ∈ l, ∃ b, p a = .ok b) :
    ∃ res, filterExcept p l = .ok res ∧ ∀ a ∈ res, a ∈ l ∧ p a = .ok true := by
  induction l with
  | nil => exact ⟨[], rfl, by simp⟩
  | cons a t ih =>
      obtain ⟨b, hb⟩ := h a (by simp)
      obtain ⟨res, hres, hmem⟩ := ih (fun x hx => h x (by simp [hx]))
      refine ⟨if b then a :: res else res, ?_, ?_⟩
      · unfold filterExcept
        simp only [hb, hres]
      · intro x hx
        cases b with
        | true =>
            simp only [if_true] at hx
            rcases List.mem_cons.mp hx with rfl | hxr
            · exact ⟨by simp, hb⟩
            · obtain ⟨hm, hp2⟩ := hmem x hxr
              exact ⟨by simp [hm], hp2⟩
        | false =>
            simp only [Bool.false_eq_true, if_false] at hx
            obtain ⟨hm, hp2⟩ := hmem x hx
            exact ⟨by simp [hm], hp2⟩

theorem gdst_item_title (it : GdstItem) :
    (gdstExtractItem it).lookup "title" = it.title.map (fun t => Value.str (pyTrim t)) := by
  unfold gdstExtractItem
  cases ht : it.title <;> cases h1 : it.spans[1]? <;> cases h2 : it.spans[2]? <;>
    cases hu : it.url <;> dsimp only <;> (try split_ifs) <;>
      simp [dictSet_lookup_same, dictSet_lookup_other, List.lookup]

theorem gdst_item_employer (it : GdstItem) :
    (gdstExtractItem it).lookup "employer_name" =
      (it.spans[1]?).map (fun e => Value.str (pyTrim e)) := by
  unfold gdstExtractItem
  cases ht : it.title <;> cases h1 : it.spans[1]? <;> cases h2 : it.spans[2]? <;>
    cases hu : it.url <;> dsimp only <;> (try split_ifs) <;>
      simp [dictSet_lookup_same, dictSet_lookup_other, List.lookup]

theorem gdst_titled_eq (it : GdstItem) :
    truthyStr ((gdstExtractItem it).lookup "title") = gdstTitled it := by
  rw [gdst_item_title]
  unfold gdstTitled
  cases it.title <;> rfl

/-- C6 fails as stated: GOV.UK extraction appends a record even when the
listing has no title element, and TES's `extract_job_data` likewise
emits a record with no `title` key; neither extractor drops it. -/
theorem counterexample_C6_title_not_enforced :
    (govExtract [govItemNoTitle]).length = 1 ∧
    ((govExtract [govItemNoTitle]).headD []).lookup "title" = none ∧
    ((govExtract [govItemNoTitle]).headD []).lookup "source" = some (Value.str "GOV.UK") ∧
    (extract_job_data ({} : TesJob)).lookup "title" = none ∧
    (extract_job_data ({} : TesJob)).lookup "source" = some (Value.str "TES") := by
  decide

/-- C6 (amended): every record the modelled extractors produce carries
the non-empty source tag of its origin; RAA and GDST drop records
missing a title at extraction time, while TES and GOV.UK extraction can
emit records that have no title. -/
theorem claim_C6_source_tag_and_title :
    (∀ job : TesJob, (extract_job_data job).lookup "source" = some (Value.str "TES")) ∧
    (∀ items : List GovItem, ∀ r ∈ govExtract items,
        r.lookup "source" = some (Value.str "GOV.UK")) ∧
    (∀ cards : List RaaCard, ∀ r ∈ raaExtract cards,
        r.lookup "source" = some (Value.str "RAA School") ∧
          (r.lookup "title").isSome = true) ∧
    (∀ (items : List GdstItem) (jobs : List Rec), gdstExtract items = .ok jobs →
        ∀ r ∈ jobs, r.lookup "source" = some (Value.str "GDST") ∧
          truthyStr (r.lookup "title") = true) := by
  refine ⟨?_, ?_, ?_, ?_⟩
  · intro job
    exact dictSet_lookup_same _ _ _
  · intro items r hr
    obtain ⟨it, _hit, rfl⟩ := List.mem_map.mp hr
    exact dictSet_lookup_same _ _ _
  · intro cards r hr
    obtain ⟨hrm, hrt⟩ := List.mem_filter.mp hr
    obtain ⟨card, _hc, rfl⟩ := List.mem_map.mp hrm
    exact ⟨dictSet_lookup_same _ _ _, hrt⟩
  · intro items jobs hok r hr
    unfold gdstExtract at hok
    have hsub := filterExcept_ok_sub _ _ _ hok r hr
    obtain ⟨hmem, htr⟩ := List.mem_filter.mp hsub
    obtain ⟨it, _hit, rfl⟩ := List.mem_map.mp hmem
    exact ⟨dictSet_lookup_same _ _ _, htr⟩

/-- Witness for C6 at concrete inputs: the records produced for a TES
job, a title-less GOV.UK listing and a titled RAA card. -/
theorem claim_C6_witness :
    (extract_job_data tesJobFull).lookup "source" = some (Value.str "TES") ∧
    ((govExtract [govItemNoTitle]).headD []).lookup "source" = some (Value.str "GOV.UK") ∧
    (((raaExtract [{ title := some "DT Teacher" }]).headD []).lookup "source" =
        some (Value.str "RAA School") ∧
      (((raaExtract [{ title := some "DT Teacher" }]).headD []).lookup "title").isSome = true) :=
  ⟨claim_C6_source_tag_and_title.1 tesJobFull,
   claim_C6_source_tag_and_title.2.1 [govItemNoTitle] _ (by decide),
   claim_C6_source_tag_and_title.2.2.1 [{ title := some "DT Teacher" }] _ (by decide)⟩

/-- C10: when every titled listing of a GDST page carries an employer
name, `GdstJobSource` extraction succeeds and returns only records whose
`employer_name` contains `croydon` or `sutton` case-insensitively — the
other GDST schools are dropped at extraction time, before normalization
and the generic relevance filter run. -/
theorem claim_C10_gdst_croydon_sutton (items : List GdstItem)
    (h : ∀ it ∈ items, gdstTitled it = true → (it.spans[1]?).isSome = true) :
    ∃ jobs, gdstExtract items = .ok jobs ∧
      ∀ r ∈ jobs, ∃ e, r.lookup "employer_name" = some (Value.str e) ∧
        (hasSub "croydon".data (pyLower e).data ||
         hasSub "sutton".data (pyLower e).data) = true := by
  unfold gdstExtract
  have hall : ∀ j ∈ (items.map gdstExtractItem).filter
      (fun j => truthyStr (j.lookup "title")), ∃ b, gdstEmployerKeep j = .ok b := by
    intro j hj
    obtain ⟨hjm, hjt⟩ := List.mem_filter.mp hj
    obtain ⟨it, hit, rfl⟩ := List.mem_map.mp hjm
    have htd : gdstTitled it = true := by
      rw [← gdst_titled_eq]
      exact hjt
    obtain ⟨e, he⟩ := Option.isSome_iff_exists.mp (h it hit htd)
    refine ⟨hasSub "croydon".data (pyLower (pyTrim e)).data ||
      hasSub "sutton".data (pyLower (pyTrim e)).data, ?_⟩
    unfold gdstEmployerKeep
    rw [gdst_item_employer, he]
    rfl
  obtain ⟨res, hres, hmem⟩ := filterExcept_ok_mem _ _ hall
  refine ⟨res, hres, ?_⟩
  intro r hr
  obtain ⟨_hrl, hkeep⟩ := hmem r hr
  unfold gdstEmployerKeep at hkeep
  cases hle : r.lookup "employer_name" with
  | none =>
      rw [hle] at hkeep
      exact Except.noConfusion hkeep
  | some v =>
      cases v with
      | str e =>
          simp only [hle] at hkeep
          refine ⟨e, rfl, ?_⟩
          simpa using hkeep
      | int n =>
          rw [hle] at hkeep
          exact Except.noConfusion hkeep
      | ts t2 =>
          rw [hle] at hkeep
          exact Except.noConfusion hkeep

/-- Witness for C10: a page with Croydon, Norwich and Sutton listings;
extraction succeeds and everything kept is Croydon or Sutton. -/
theorem claim_C10_witness :
    ∃ jobs, gdstExtract gdstItemsSample = .ok jobs ∧
      ∀ r ∈ jobs, ∃ e, r.lookup "employer_name" = some (Value.str e) ∧
        (hasSub "croydon".data (pyLower e).data ||
         hasSub "sutton".data (pyLower e).data) = true :=
  claim_C10_gdst_croydon_sutton gdstItemsSample (by decide)

/-! ## Derived-date claim (C7) and mail claims (C9) -/

/-- A successful `GovJobSource.normalize` run over a batch that has a
`closing_date` column, at least one parseable close date, and none of
the optional `url`/`school_type`/`pay_scale`/`working_pattern`
columns: the `days_to_apply` column is the pointwise day difference of
the coerced close dates. -/
theorem govNormalize_close_spec (now : Int) (raw : List Rec) (cCol : Col)
    (hC : (mkDF raw).getCol "closing_date" = some cCol)
    (hE : raw.isEmpty = false)
    (hnotall : (cCol.map toDatetimeCellCoerce).all (fun c => c.isNone) = false)
    (hU : (mkDF raw).getCol "url" = none)
    (hST : (mkDF raw).getCol "school_type" = none)
    (hPS : (mkDF raw).getCol "pay_scale" = none)
    (hWP : (mkDF raw).getCol "working_pattern" = none) :
    ∃ df', govNormalize now raw = .ok df' ∧
      df'.getCol "days_to_apply" =
        some ((cCol.map toDatetimeCellCoerce).map (dayCell now)) := by
  unfold govNormalize
  rw [if_neg (by simp [hE])]
  simp only [hC]
  have h2 : (((mkDF raw).setCol "application_closeDate" (cCol.map toDatetimeCellCoerce)).setCol
      "application_closeDate_formatted" cCol).getCol "application_closeDate" =
      some (cCol.map toDatetimeCellCoerce) := by
    rw [getCol_setCol_other _ _ _ _
          (show ("application_closeDate" : String) ≠ "application_closeDate_formatted" by decide),
        getCol_setCol_same]
  simp only [h2]
  rw [if_neg (by simp [hnotall])]
  have h3 : ((((mkDF raw).setCol "application_closeDate" (cCol.map toDatetimeCellCoerce)).setCol
      "application_closeDate_formatted" cCol).setCol "days_to_apply"
      ((cCol.map toDatetimeCellCoerce).map (dayCell now))).getCol "url" = none := by
    rw [getCol_setCol_other _ _ _ _ (show ("url" : String) ≠ "days_to_apply" by decide),
        getCol_setCol_other _ _ _ _
          (show ("url" : String) ≠ "application_closeDate_formatted" by decide),
        getCol_setCol_other _ _ _ _
          (show ("url" : String) ≠ "application_closeDate" by decide),
        hU]
  simp only [h3]
  unfold govNormalizeTail
  have hpre : ∀ c : String, c ≠ "status" → c ≠ "days_to_apply" →
      c ≠ "application_closeDate_formatted" → c ≠ "application_closeDate" →
      ∀ col : Col,
      (((((mkDF raw).setCol "application_closeDate"
          (cCol.map toDatetimeCellCoerce)).setCol
          "application_closeDate_formatted" cCol).setCol "days_to_apply"
          ((cCol.map toDatetimeCellCoerce).map (dayCell now))).setCol "status" col).getCol c =
        (mkDF raw).getCol c := by
    intro c hc1 hc2 hc3 hc4 col
    rw [getCol_setCol_other _ _ _ _ hc1, getCol_setCol_other _ _ _ _ hc2,
        getCol_setCol_other _ _ _ _ hc3, getCol_setCol_other _ _ _ _ hc4]
  simp only [hpre "school_type" (by decide) (by decide) (by decide) (by decide),
             hpre "pay_scale" (by decide) (by decide) (by decide) (by decide),
             hpre "working_pattern" (by decide) (by decide) (by decide) (by decide),
             hST, hPS, hWP]
  refine ⟨_, rfl, ?_⟩
  rw [getCol_setCol_other _ _ _ _ (show ("days_to_apply" : String) ≠ "status" by decide),
      getCol_setCol_same]

set_option maxHeartbeats 800000 in
/-- C7: `days_to_apply` is the close date minus "now" in whole (floored)
days, for the TES normalizer (over any batch it accepts) and the GOV.UK
normalizer; a close date exactly equal to now yields 0 and a close date
one day in the past yields a negative value. -/
theorem claim_C7_days_to_apply :
    (∀ (now : Int) (raw : List Rec) (sCol cCol : Col),
        (mkDF raw).getCol "advert_startDate" = some sCol →
        (mkDF raw).getCol "application_closeDate" = some cCol →
        ((mkDF raw).getCol "url").isSome = true →
        sCol.all dateLike = true → cCol.all dateLike = true →
        (((mkDF raw).getCol "advert_endDate").getD []).all dateLike = true →
        ∀ i t, cCol[i]? = some (some (.ts t)) →
          ∃ df', tesNormalize now raw = .ok df' ∧
            df'.cellAt "days_to_apply" i = some (some (.int (Int.fdiv (t - now) 1440)))) ∧
    (∀ (now t : Int), ∃ df', govNormalize now [govRecClose t] = .ok df' ∧
        df'.cellAt "days_to_apply" 0 = some (some (.int (Int.fdiv (t - now) 1440)))) ∧
    (∀ now t : Int, t = now → Int.fdiv (t - now) 1440 = 0) ∧
    (∀ now t : Int, t = now - 1440 → Int.fdiv (t - now) 1440 < 0) := by
  refine ⟨?_, ?_, ?_, ?_⟩
  · intro now raw sCol cCol hS hC hU hSd hCd hEd i t hcell
    obtain ⟨df', h0, _h1, h2, _h3, _h4⟩ := tesNormalize_spec now raw sCol cCol hS hC hU hSd hCd hEd
    refine ⟨df', h0, ?_⟩
    unfold DF.cellAt
    rw [h2]
    simp [List.getElem?_map, hcell, dayCell]
  · intro now t
    obtain ⟨df', h0, h1⟩ := govNormalize_close_spec now [govRecClose t] [some (.ts t)]
      (by simp [mkDF, tableOf, unionKeys, addKeys, govRecClose, DF.getCol, List.lookup])
      rfl
      (by simp [toDatetimeCellCoerce])
      (by simp [mkDF, tableOf, unionKeys, addKeys, govRecClose, DF.getCol, List.lookup])
      (by simp [mkDF, tableOf, unionKeys, addKeys, govRecClose, DF.getCol, List.lookup])
      (by simp [mkDF, tableOf, unionKeys, addKeys, govRecClose, DF.getCol, List.lookup])
      (by simp [mkDF, tableOf, unionKeys, addKeys, govRecClose, DF.getCol, List.lookup])
    refine ⟨df', h0, ?_⟩
    unfold DF.cellAt
    rw [h1]
    simp [toDatetimeCellCoerce, dayCell]
  · intro now t h
    subst h
    simp [Int.sub_self, Int.zero_fdiv]
  · intro now t h
    subst h
    have hx : now - 1440 - now = -1440 := by omega
    rw [hx]
    decide

set_option maxHeartbeats 1600000 in
/-- Witness for C7: the mixed TES batch at close date minute 3000 with
now at minute 100, the GOV.UK single record with close date equal to
now, and the two day-arithmetic cases. -/
theorem claim_C7_witness :
    (∃ df', tesNormalize 100 tesRawMixed = .ok df' ∧
        df'.cellAt "days_to_apply" 0 = some (some (.int (Int.fdiv (3000 - 100) 1440)))) ∧
    (∃ df', govNormalize 0 [govRecClose 0] = .ok df' ∧
        df'.cellAt "days_to_apply" 0 = some (some (.int (Int.fdiv (0 - 0) 1440)))) ∧
    Int.fdiv ((0 : Int) - 0) 1440 = 0 ∧
    Int.fdiv ((0 : Int) - 1440 - 0) 1440 < 0 :=
  ⟨claim_C7_days_to_apply.1 100 tesRawMixed [some (.ts 500), none] [some (.ts 3000), none]
      (by decide) (by decide) (by decide) (by decide) (by decide) (by decide) 0 3000 (by decide),
   claim_C7_days_to_apply.2.1 0 0,
   claim_C7_days_to_apply.2.2.1 0 0 rfl,
   claim_C7_days_to_apply.2.2.2 0 (0 - 1440) rfl⟩

/-- C9 fails on the code: with delivery explicitly required (sending on,
jobs found, recipients configured) and the Gmail credentials unset,
`send_email_to_recipients` raises `ValueError`, but the `try/except` in
`main` catches it and writes the fallback file — nothing surfaces to the
caller of the run. -/
theorem counterexample_C9_credentials_swallowed :
    isErr (send_email_to_recipients none none true) = true ∧
    mainMailStep true 5 ["a@b.example"] none none true = MailOutcome.savedToFile ∧
    mainMailStep true 5 ["a@b.example"] none none true ≠
      MailOutcome.raisedErr "GMAIL_USER and GMAIL_PASS environment variables must be set" := by
  refine ⟨rfl, ?_, ?_⟩ <;> decide

/-- C9 (amended): misconfigured mail credentials make
`send_email_to_recipients` raise, but `main` locally recovers every
delivery error: its mail step always ends in a sent mail or the fallback
file, never in a propagated exception. -/
theorem claim_C9_mail_errors_recovered (se : Bool) (tj : Nat) (recips : List String)
    (user pw : Option String) (smtpOk : Bool) :
    (mainMailStep se tj recips user pw smtpOk = MailOutcome.sentOk ∨
     mainMailStep se tj recips user pw smtpOk = MailOutcome.savedToFile) ∧
    (falsyEnv user = true → isErr (send_email_to_recipients user pw smtpOk) = true) := by
  constructor
  · unfold mainMailStep
    split
    · split
      · exact Or.inr rfl
      · cases hsend : send_email_to_recipients user pw smtpOk with
        | ok b => simp [hsend]
        | error e => simp [hsend]
    · exact Or.inr rfl
  · intro hu
    unfold send_email_to_recipients
    rw [if_pos (by simp [hu])]
    rfl

/-- Witness for C9 at a concrete configuration: delivery requested, jobs
found, recipients set, credentials unset. -/
theorem claim_C9_witness :
    ((mainMailStep true 5 ["a@b.example"] none none true = MailOutcome.sentOk ∨
      mainMailStep true 5 ["a@b.example"] none none true = MailOutcome.savedToFile) ∧
     (falsyEnv (none : Option String) = true →
        isErr (send_email_to_recipients none none true) = true)) :=
  claim_C9_mail_errors_recovered true 5 ["a@b.example"] none none true

end JobSearch
